import Mathlib

/-!
Verification development for the flat-sheet insulation calculation engine
(`src/utils/sheets.ts`): thermal-conductivity interpolation, flat-wall
U-value, heat-loss estimation, catalog thickness recommendation, the
anti-condensation bisection solver, and the nominal thickness rounder.

Numbers are embedded as exact rationals (`ℚ`); exceptions thrown by the
code are embedded as `Except SheetError`.  The single transcendental
operation of the code, `Math.pow(x, 0.33)`, is abstracted as a function
parameter `pw : ℚ → ℚ`.
-/

/-- Error kinds of the engine: the code throws `Error` with a message; the
spec classifies the throw sites into `InvalidInput` (non-positive
h/thickness/area/λ) and `PhysicallyImpossible` (dew-point guards). -/
inductive SheetError where
  | invalidInput : SheetError
  | physicallyImpossible : SheetError
deriving DecidableEq, Repr

/-- Modelled from the spec: the material registry `SHEET_MATERIALS`
(`./constants`, not present under src/) maps a material identifier to a
`MaterialThermalProfile`, "an ordered set of (temperature anchor in °C,
conductivity λ in W/(m·K)) pairs for one material, anchors sorted
ascending, each λ > 0".  A material is embedded as `Option MaterialProfile`:
`none` is an unknown identifier, `some l` a known profile whose list is the
ascending-sorted anchor table the code derives from the object keys. -/
def MaterialProfile : Type := List (ℚ × ℚ)

/-- Modelled from the spec: validity of a stored profile — nonempty,
anchors strictly ascending (object keys are distinct, and the code sorts
them), every λ positive. -/
def ValidProfile (l : List (ℚ × ℚ)) : Prop :=
  l ≠ [] ∧ l.Pairwise (fun p q => p.1 < q.1) ∧ ∀ p ∈ l, 0 < p.2

/-- Validity of an optional material: unknown materials are always fine. -/
def ValidMaterial : Option (List (ℚ × ℚ)) → Prop
  | none => True
  | some l => ValidProfile l

instance (l : List (ℚ × ℚ)) : Decidable (ValidProfile l) := by
  unfold ValidProfile; infer_instance

instance (m : Option (List (ℚ × ℚ))) : Decidable (ValidMaterial m) := by
  cases m <;> · unfold ValidMaterial; infer_instance

/-- The bracketing loop of `interpolateSheetLambda`: scan adjacent anchor
pairs in ascending order; on the first pair with `t0 ≤ temp ≤ t1` return
the linear interpolation `l0 + (l1 - l0) * (temp - t0) / (t1 - t0)` (the
`break` in the code); otherwise keep the default value. -/
def interpBrackets (temp dflt : ℚ) : List (ℚ × ℚ) → ℚ
  | p0 :: p1 :: rest =>
    if p0.1 ≤ temp ∧ temp ≤ p1.1 then
      p0.2 + (p1.2 - p0.2) * (temp - p0.1) / (p1.1 - p0.1)
    else interpBrackets temp dflt (p1 :: rest)
  | _ => dflt

/-- `interpolateSheetLambda(temp, material)`: unknown material → 0.036;
exact anchor match → stored λ; otherwise default to the lowest anchor's λ
(or 0.036 for an empty table) and run the bracketing loop. -/
def interpolateSheetLambda (temp : ℚ) (material : Option (List (ℚ × ℚ))) : ℚ :=
  match material with
  | none => 36/1000
  | some lambdaData =>
    match lambdaData.find? (fun p => p.1 == temp) with
    | some p => p.2
    | none =>
      let dflt : ℚ :=
        match lambdaData.head? with
        | some p => p.2
        | none => 36/1000
      interpBrackets temp dflt lambdaData

/-- The value computed by `getFlatU` when validation passes:
`U = 1 / (1/h + (thicknessMm/1000)/λ)`. -/
def flatUval (h thicknessMm lambda : ℚ) : ℚ :=
  1 / (1/h + (thicknessMm/1000)/lambda)

/-- `getFlatU(h, thicknessMm, lambda)`: validates `h`, `thicknessMm`,
`lambda` strictly positive (in that order), then returns the reciprocal of
the total thermal resistance `1/h + (thicknessMm/1000)/lambda`. -/
def getFlatU (h thicknessMm lambda : ℚ) : Except SheetError ℚ :=
  if h ≤ 0 then .error .invalidInput
  else if thicknessMm ≤ 0 then .error .invalidInput
  else if lambda ≤ 0 then .error .invalidInput
  else .ok (flatUval h thicknessMm lambda)

/-- `getNominalSheetThicknessRecommendation(minimumThickness)`: the fixed
breakpoint chain of the code, evaluated top-down. -/
def getNominalSheetThicknessRecommendation (minimumThickness : ℚ) : ℚ :=
  if minimumThickness > 3799/100 then 50
  else if minimumThickness > 2999/100 then 40
  else if minimumThickness > 2299/100 then 32
  else if minimumThickness > 1699/100 then 25
  else if minimumThickness > 1099/100 then 19
  else if minimumThickness > 7 then 13
  else if minimumThickness > 499/100 then 9
  else 6

/-- The bracketing loop is a no-op when the temperature lies strictly below
every anchor. -/
lemma interpBrackets_of_forall_lt (temp dflt : ℚ) (l : List (ℚ × ℚ))
    (hall : ∀ p ∈ l, temp < p.1) : interpBrackets temp dflt l = dflt := by
  induction l with
  | nil => rfl
  | cons x t ih =>
    cases t with
    | nil => rfl
    | cons y t' =>
      rw [interpBrackets, if_neg]
      · exact ih fun p hp => hall p (List.mem_cons_of_mem x hp)
      · rintro ⟨hx, -⟩
        exact absurd hx (not_le.mpr (hall x (List.mem_cons_self x _)))

/-- The bracketing loop is a no-op when the temperature lies strictly above
every anchor. -/
lemma interpBrackets_of_forall_gt (temp dflt : ℚ) (l : List (ℚ × ℚ))
    (hall : ∀ p ∈ l, p.1 < temp) : interpBrackets temp dflt l = dflt := by
  induction l with
  | nil => rfl
  | cons x t ih =>
    cases t with
    | nil => rfl
    | cons y t' =>
      rw [interpBrackets, if_neg]
      · exact ih fun p hp => hall p (List.mem_cons_of_mem x hp)
      · rintro ⟨-, hy⟩
        exact absurd hy
          (not_le.mpr (hall y (List.mem_cons_of_mem x (List.mem_cons_self y _))))

/-- The last element reported by `getLast?` is a member of the list. -/
lemma mem_of_getLast?_eq_some {α : Type} {l : List α} {a : α}
    (h : l.getLast? = some a) : a ∈ l := by
  induction l with
  | nil => simp at h
  | cons x t ih =>
    cases t with
    | nil => simp at h; simp [h]
    | cons y t' =>
      rw [List.getLast?_cons_cons] at h
      exact List.mem_cons_of_mem x (ih h)

/-- In a table with strictly ascending anchors, every anchor is bounded by
the last one. -/
lemma fst_le_getLast_of_pairwise {l : List (ℚ × ℚ)} {pL : ℚ × ℚ}
    (hp : l.Pairwise (fun p q => p.1 < q.1)) (hL : l.getLast? = some pL) :
    ∀ p ∈ l, p.1 ≤ pL.1 := by
  induction l with
  | nil => simp at hL
  | cons x t ih =>
    rcases List.pairwise_cons.mp hp with ⟨hx, hp'⟩
    cases t with
    | nil =>
      simp only [List.getLast?_singleton, Option.some.injEq] at hL
      subst hL
      intro p hp0
      rcases List.mem_singleton.mp hp0 with rfl
      exact le_refl _
    | cons y t' =>
      rw [List.getLast?_cons_cons] at hL
      have hmem : pL ∈ y :: t' := mem_of_getLast?_eq_some hL
      intro p hp0
      rcases List.mem_cons.mp hp0 with rfl | hp1
      · exact (hx pL hmem).le
      · exact ih hp' hL p hp1

/-- In a table with strictly ascending anchors, a lookup of the last
anchor's temperature finds exactly the last entry. -/
lemma find?_getLast_of_pairwise {l : List (ℚ × ℚ)} {pL : ℚ × ℚ}
    (hp : l.Pairwise (fun p q => p.1 < q.1)) (hL : l.getLast? = some pL) :
    l.find? (fun p => p.1 == pL.1) = some pL := by
  induction l with
  | nil => simp at hL
  | cons x t ih =>
    rcases List.pairwise_cons.mp hp with ⟨hx, hp'⟩
    cases t with
    | nil =>
      simp only [List.getLast?_singleton, Option.some.injEq] at hL
      subst hL
      simp [List.find?_cons_of_pos]
    | cons y t' =>
      rw [List.getLast?_cons_cons] at hL
      have hmem : pL ∈ y :: t' := mem_of_getLast?_eq_some hL
      have hxlt : x.1 < pL.1 := hx pL hmem
      rw [List.find?_cons_of_neg]
      · exact ih hp' hL
      · simp only [beq_iff_eq]
        exact fun h => absurd h (ne_of_lt hxlt)

/-- C2 counterexample: the claim asserts that at a temperature equal to the
highest anchor the interpolator returns the lowest anchor's λ.  On the
two-anchor profile {0 ↦ 0.04, 100 ↦ 0.05} (valid: ascending anchors,
positive λ), the exact-match branch fires at temperature 100 and returns
0.05, the highest anchor's λ, not 0.04. -/
theorem interpolate_at_highest_anchor_ne_lowest :
    interpolateSheetLambda 100 (some [(0, 4/100), (100, 5/100)]) ≠ 4/100 := by
  have h1 : (((0 : ℚ), (4/100 : ℚ)).1 == (100 : ℚ)) = false := by
    simp only [beq_eq_false_iff_ne, ne_eq]
    norm_num
  have h2 : (((100 : ℚ), (5/100 : ℚ)).1 == (100 : ℚ)) = true := by
    simp only [beq_iff_eq]
  norm_num [interpolateSheetLambda, List.find?, h1, h2]

/-- C2 (amended): out-of-range policy of `interpolateSheetLambda` for a
known, valid profile: strictly below the lowest anchor it clamps to the
lowest anchor's λ; strictly above the highest anchor it also returns the
lowest anchor's λ (the loop falls through to its initial value); but at a
temperature exactly equal to the highest anchor the exact-match rule wins
and the highest anchor's own λ is returned. -/
theorem interpolate_out_of_range_policy (temp : ℚ) (p₀ pL : ℚ × ℚ)
    (rest : List (ℚ × ℚ)) (hv : ValidProfile (p₀ :: rest))
    (hL : (p₀ :: rest).getLast? = some pL) :
    (temp < p₀.1 → interpolateSheetLambda temp (some (p₀ :: rest)) = p₀.2) ∧
    (pL.1 < temp → interpolateSheetLambda temp (some (p₀ :: rest)) = p₀.2) ∧
    (temp = pL.1 → interpolateSheetLambda temp (some (p₀ :: rest)) = pL.2) := by
  rcases hv with ⟨-, hp, -⟩
  refine ⟨?_, ?_, ?_⟩
  · intro hlt
    have hall : ∀ p ∈ p₀ :: rest, temp < p.1 := by
      intro p hp0
      rcases List.mem_cons.mp hp0 with rfl | hp1
      · exact hlt
      · exact hlt.trans ((List.pairwise_cons.mp hp).1 p hp1)
    have hnone : (p₀ :: rest).find? (fun p => p.1 == temp) = none := by
      rw [List.find?_eq_none]
      intro p hp0
      simp only [beq_iff_eq]
      exact fun h => absurd h (ne_of_gt (hall p hp0))
    simp only [interpolateSheetLambda, hnone, List.head?_cons]
    exact interpBrackets_of_forall_lt temp _ _ hall
  · intro hgt
    have hall : ∀ p ∈ p₀ :: rest, p.1 < temp := by
      intro p hp0
      exact lt_of_le_of_lt (fst_le_getLast_of_pairwise hp hL p hp0) hgt
    have hnone : (p₀ :: rest).find? (fun p => p.1 == temp) = none := by
      rw [List.find?_eq_none]
      intro p hp0
      simp only [beq_iff_eq]
      exact fun h => absurd h (ne_of_lt (hall p hp0))
    simp only [interpolateSheetLambda, hnone, List.head?_cons]
    exact interpBrackets_of_forall_gt temp _ _ hall
  · intro heq
    subst heq
    have hfind := find?_getLast_of_pairwise hp hL
    simp only [interpolateSheetLambda]
    rw [show (fun p : ℚ × ℚ => p.1 == pL.1) = (fun p : ℚ × ℚ => p.1 == pL.1) from rfl] at hfind
    rw [hfind]

/-- C2 witness: the policy at a concrete valid three-anchor profile —
below-range, above-range, and at the highest anchor. -/
theorem interpolate_out_of_range_policy_witness :
    ((-5 : ℚ) < (0 : ℚ) →
      interpolateSheetLambda (-5) (some [(0, 4/100), (50, 45/1000), (100, 5/100)]) = 4/100) ∧
    (((100 : ℚ) < (200 : ℚ) →
      interpolateSheetLambda 200 (some [(0, 4/100), (50, 45/1000), (100, 5/100)]) = 4/100) ∧
    ((100 : ℚ) = (100 : ℚ) →
      interpolateSheetLambda 100 (some [(0, 4/100), (50, 45/1000), (100, 5/100)]) = 5/100)) := by
  have hv : ValidProfile [(0, 4/100), (50, 45/1000), (100, 5/100)] := by
    refine ⟨by simp, ?_, ?_⟩
    · norm_num [List.pairwise_cons]
    · intro p hp
      fin_cases hp <;> norm_num
  have hL : ([((0 : ℚ), (4/100 : ℚ)), (50, 45/1000), (100, 5/100)]).getLast? =
      some (100, 5/100) := by rfl
  have h1 := interpolate_out_of_range_policy (-5) (0, 4/100) (100, 5/100)
    [(50, 45/1000), (100, 5/100)] hv hL
  have h2 := interpolate_out_of_range_policy 200 (0, 4/100) (100, 5/100)
    [(50, 45/1000), (100, 5/100)] hv hL
  have h3 := interpolate_out_of_range_policy 100 (0, 4/100) (100, 5/100)
    [(50, 45/1000), (100, 5/100)] hv hL
  exact ⟨h1.1, h2.2.1, h3.2.2⟩

/-- C1 counterexample: the claim asserts `nominalThicknessRecommendation(7) = 13`,
but the code's breakpoint is strict (`> 7 → 13`), so the input 7 falls
through to the `> 4.99 → 9` branch and returns 9, not 13. -/
theorem nominal_at_seven_ne_thirteen :
    getNominalSheetThicknessRecommendation 7 ≠ 13 := by
  norm_num [getNominalSheetThicknessRecommendation]

/-- C1 (amended): boundary values of the nominal thickness rounder as the
code computes them: `nominal(11) = 19`, `nominal(7) = 9` (the `> 7`
breakpoint is strict, so 7 itself falls to the next band), and
`nominal(4.99) = 6`. -/
theorem nominal_boundary_values :
    getNominalSheetThicknessRecommendation 11 = 19 ∧
    getNominalSheetThicknessRecommendation 7 = 9 ∧
    getNominalSheetThicknessRecommendation (499/100) = 6 := by
  norm_num [getNominalSheetThicknessRecommendation]

set_option maxHeartbeats 1600000 in
/-- C10: the nominal thickness rounder only ever returns one of
{6, 9, 13, 19, 25, 32, 40, 50} — in particular never the catalog size 10
and never more than 50 — and it is monotone non-decreasing. -/
theorem nominal_range_and_monotone (x y : ℚ) :
    (getNominalSheetThicknessRecommendation x ∈
      ([6, 9, 13, 19, 25, 32, 40, 50] : List ℚ)) ∧
    getNominalSheetThicknessRecommendation x ≠ 10 ∧
    getNominalSheetThicknessRecommendation x ≤ 50 ∧
    (x ≤ y →
      getNominalSheetThicknessRecommendation x ≤
        getNominalSheetThicknessRecommendation y) := by
  unfold getNominalSheetThicknessRecommendation
  refine ⟨?_, ?_, ?_, ?_⟩
  · split_ifs <;> simp
  · split_ifs <;> norm_num
  · split_ifs <;> norm_num
  · intro hxy
    split_ifs <;> norm_num <;> linarith

/-- C10 witness at x = 11, y = 12. -/
theorem nominal_range_and_monotone_witness :
    (getNominalSheetThicknessRecommendation 11 ∈
      ([6, 9, 13, 19, 25, 32, 40, 50] : List ℚ)) ∧
    getNominalSheetThicknessRecommendation 11 ≠ 10 ∧
    getNominalSheetThicknessRecommendation 11 ≤ 50 ∧
    (11 ≤ (12 : ℚ) →
      getNominalSheetThicknessRecommendation 11 ≤
        getNominalSheetThicknessRecommendation 12) :=
  nominal_range_and_monotone 11 12

/-- The bracketing loop returns a positive λ when the default is positive
and the profile is ascending with positive conductivities (an interpolated
value is a convex combination of two positive anchor values). -/
lemma interpBrackets_pos (temp dflt : ℚ) (l : List (ℚ × ℚ)) (hd : 0 < dflt)
    (hp : l.Pairwise (fun p q => p.1 < q.1)) (hpos : ∀ p ∈ l, 0 < p.2) :
    0 < interpBrackets temp dflt l := by
  induction l with
  | nil => exact hd
  | cons x t ih =>
    cases t with
    | nil => exact hd
    | cons y t' =>
      rcases List.pairwise_cons.mp hp with ⟨hx, hp'⟩
      rw [interpBrackets]
      split_ifs with hcond
      · obtain ⟨h1, h2⟩ := hcond
        have ht : x.1 < y.1 := hx y (List.mem_cons_self _ _)
        have hx2 : 0 < x.2 := hpos x (List.mem_cons_self _ _)
        have hy2 : 0 < y.2 :=
          hpos y (List.mem_cons_of_mem _ (List.mem_cons_self _ _))
        have hs0 : 0 ≤ (temp - x.1) / (y.1 - x.1) :=
          div_nonneg (by linarith) (by linarith)
        have hs1 : (temp - x.1) / (y.1 - x.1) ≤ 1 := by
          rw [div_le_one (by linarith)]; linarith
        have hrw : x.2 + (y.2 - x.2) * (temp - x.1) / (y.1 - x.1)
            = x.2 * (1 - (temp - x.1) / (y.1 - x.1))
              + y.2 * ((temp - x.1) / (y.1 - x.1)) := by
          ring
        rw [hrw]
        rcases eq_or_lt_of_le hs1 with heq | hlt
        · rw [heq]; simpa using hy2
        · have hterm1 : 0 < x.2 * (1 - (temp - x.1) / (y.1 - x.1)) :=
            mul_pos hx2 (by linarith)
          have hterm2 : 0 ≤ y.2 * ((temp - x.1) / (y.1 - x.1)) :=
            mul_nonneg hy2.le hs0
          linarith
      · exact ih hp' fun p hp0 => hpos p (List.mem_cons_of_mem _ hp0)

/-- For a valid (possibly unknown) material the interpolated conductivity
is strictly positive. -/
lemma interpolateSheetLambda_pos (temp : ℚ) (mat : Option (List (ℚ × ℚ)))
    (hv : ValidMaterial mat) : 0 < interpolateSheetLambda temp mat := by
  cases mat with
  | none => norm_num [interpolateSheetLambda]
  | some l =>
    rcases hv with ⟨hne, hp, hpos⟩
    cases hfind : l.find? (fun p => p.1 == temp) with
    | some p =>
      have : interpolateSheetLambda temp (some l) = p.2 := by
        simp only [interpolateSheetLambda, hfind]
      rw [this]
      exact hpos p (List.mem_of_find?_eq_some hfind)
    | none =>
      cases l with
      | nil => exact absurd rfl hne
      | cons x t =>
        have : interpolateSheetLambda temp (some (x :: t)) =
            interpBrackets temp x.2 (x :: t) := by
          simp only [interpolateSheetLambda, hfind, List.head?_cons]
        rw [this]
        exact interpBrackets_pos temp x.2 (x :: t)
          (hpos x (List.mem_cons_self _ _)) hp hpos

/-- When all three validations pass, `getFlatU` returns the U-value. -/
lemma getFlatU_ok (h t lam : ℚ) (hh : 0 < h) (ht : 0 < t) (hl : 0 < lam) :
    getFlatU h t lam = .ok (flatUval h t lam) := by
  unfold getFlatU
  rw [if_neg (not_le.mpr hh), if_neg (not_le.mpr ht), if_neg (not_le.mpr hl)]

/-- C8: the flat-wall U-value is strictly decreasing in thickness and
strictly increasing in λ, the other parameters held fixed and positive. -/
theorem flatU_strict_monotone (h t t₁ t₂ lam lam₁ lam₂ : ℚ) (hh : 0 < h) :
    (0 < lam → 0 < t₁ → t₁ < t₂ → flatUval h t₂ lam < flatUval h t₁ lam) ∧
    (0 < t → 0 < lam₁ → lam₁ < lam₂ →
      flatUval h t lam₁ < flatUval h t lam₂) := by
  constructor
  · intro hl ht1 ht12
    unfold flatUval
    have hR1 : 0 < 1/h + (t₁/1000)/lam :=
      add_pos (one_div_pos.mpr hh) (div_pos (by linarith) hl)
    apply one_div_lt_one_div_of_lt hR1
    have : (t₁/1000)/lam < (t₂/1000)/lam := by
      apply div_lt_div_of_pos_right ?_ hl
      linarith
    linarith
  · intro ht hl1 hl12
    unfold flatUval
    have hR2 : 0 < 1/h + (t/1000)/lam₂ :=
      add_pos (one_div_pos.mpr hh) (div_pos (by linarith) (hl1.trans hl12))
    apply one_div_lt_one_div_of_lt hR2
    have : (t/1000)/lam₂ < (t/1000)/lam₁ :=
      div_lt_div_of_pos_left (by linarith) hl1 hl12
    linarith

/-- C8 witness: with h = 9 and λ = 0.036, thickness 19 gives a smaller U
than thickness 13; with h = 9 and thickness 13, λ = 0.04 gives a larger U
than λ = 0.036. -/
theorem flatU_strict_monotone_witness :
    flatUval 9 19 (36/1000) < flatUval 9 13 (36/1000) ∧
    flatUval 9 13 (36/1000) < flatUval 9 13 (40/1000) :=
  ⟨(flatU_strict_monotone 9 13 13 19 (36/1000) (36/1000) (40/1000)
      (by norm_num)).1 (by norm_num) (by norm_num) (by norm_num),
   (flatU_strict_monotone 9 13 13 19 (36/1000) (36/1000) (40/1000)
      (by norm_num)).2 (by norm_num) (by norm_num) (by norm_num)⟩

/-- Result bundle of `computeSheetHeatLoss`. -/
structure SheetHeatLossResult where
  meanLambda : ℚ
  U : ℚ
  Q : ℚ
  decrease : ℚ
  costPerHour : ℚ
deriving DecidableEq, Repr

/-- `computeSheetHeatLoss(ambientTemp, mediumTemp, thicknessMm, areaM2,
material, h, costPerKWh)`: validates area, thickness, h (in that order);
looks λ up at `ambientTemp + 5`; U via `getFlatU`; `Q = U·area·ΔT` with
`ΔT = |mediumTemp - ambientTemp|`; bare baseline
`h0 = max(1.32·ΔT^0.33, 1/0.13) + 0.93·1.428`, `Q0 = h0·area·ΔT`;
`decrease = (Q0 - Q)/Q0·100`; `costPerHour = (Q/1000)·costPerKWh`.
`Math.pow(x, 0.33)` is abstracted by the parameter `pw`. -/
def computeSheetHeatLoss (pw : ℚ → ℚ)
    (ambientTemp mediumTemp thicknessMm areaM2 : ℚ)
    (material : Option (List (ℚ × ℚ))) (h costPerKWh : ℚ) :
    Except SheetError SheetHeatLossResult :=
  if areaM2 ≤ 0 then .error .invalidInput
  else if thicknessMm ≤ 0 then .error .invalidInput
  else if h ≤ 0 then .error .invalidInput
  else
    let lambda := interpolateSheetLambda (ambientTemp + 5) material
    match getFlatU h thicknessMm lambda with
    | .error e => .error e
    | .ok U =>
      let deltaT := |mediumTemp - ambientTemp|
      let Q := U * areaM2 * deltaT
      let alpha_conv := max (132/100 * pw deltaT) (1/(13/100))
      let alpha_rad_q0 := (93/100) * (1428/1000)
      let h0 := alpha_conv + alpha_rad_q0
      let Q0 := h0 * areaM2 * deltaT
      let decrease := (Q0 - Q) / Q0 * 100
      let costPerHour := Q / 1000 * costPerKWh
      .ok ⟨lambda, U, Q, decrease, costPerHour⟩

/-- C4: with positive area, thickness and h and a valid material, the heat
loss estimator returns exactly the spec's bundle: λ looked up at
`ambientTemp + 5`; `U = flatU(h, thickness, λ)`; `Q = U·area·ΔT` with
`ΔT = |mediumTemp - ambientTemp|`; `Q0 = (max(1.32·ΔT^0.33, 1/0.13) +
0.93·1.428)·area·ΔT`; `decrease = (Q0 - Q)/Q0·100`;
`costPerHour = (Q/1000)·costPerKWh`. -/
theorem computeSheetHeatLoss_formulas (pw : ℚ → ℚ)
    (ambientTemp mediumTemp thicknessMm areaM2 : ℚ)
    (material : Option (List (ℚ × ℚ))) (h costPerKWh : ℚ)
    (ha : 0 < areaM2) (ht : 0 < thicknessMm) (hh : 0 < h)
    (hv : ValidMaterial material) :
    computeSheetHeatLoss pw ambientTemp mediumTemp thicknessMm areaM2
        material h costPerKWh =
      Except.ok
        { meanLambda := interpolateSheetLambda (ambientTemp + 5) material
        , U := flatUval h thicknessMm
            (interpolateSheetLambda (ambientTemp + 5) material)
        , Q := flatUval h thicknessMm
            (interpolateSheetLambda (ambientTemp + 5) material) * areaM2 *
            |mediumTemp - ambientTemp|
        , decrease :=
            ((max (132/100 * pw |mediumTemp - ambientTemp|) (1/(13/100)) +
                93/100 * (1428/1000)) * areaM2 * |mediumTemp - ambientTemp| -
              flatUval h thicknessMm
                (interpolateSheetLambda (ambientTemp + 5) material) * areaM2 *
                |mediumTemp - ambientTemp|) /
            ((max (132/100 * pw |mediumTemp - ambientTemp|) (1/(13/100)) +
                93/100 * (1428/1000)) * areaM2 * |mediumTemp - ambientTemp|) *
            100
        , costPerHour := flatUval h thicknessMm
            (interpolateSheetLambda (ambientTemp + 5) material) * areaM2 *
            |mediumTemp - ambientTemp| / 1000 * costPerKWh } := by
  unfold computeSheetHeatLoss
  rw [if_neg (not_le.mpr ha), if_neg (not_le.mpr ht), if_neg (not_le.mpr hh)]
  dsimp only
  rw [getFlatU_ok h thicknessMm _ hh ht
      (interpolateSheetLambda_pos (ambientTemp + 5) material hv)]

/-- C4 witness at `pw = (fun x => 2)`, ambient 25, medium 55, thickness 13,
area 1, unknown material, h = 9, cost 5. -/
theorem computeSheetHeatLoss_formulas_witness :
    computeSheetHeatLoss (fun _ => 2) 25 55 13 1 none 9 5 =
      Except.ok
        { meanLambda := interpolateSheetLambda (25 + 5) none
        , U := flatUval 9 13 (interpolateSheetLambda (25 + 5) none)
        , Q := flatUval 9 13 (interpolateSheetLambda (25 + 5) none) * 1 *
            |(55 : ℚ) - 25|
        , decrease :=
            ((max (132/100 * (fun _ : ℚ => (2 : ℚ)) |(55 : ℚ) - 25|)
                (1/(13/100)) + 93/100 * (1428/1000)) * 1 * |(55 : ℚ) - 25| -
              flatUval 9 13 (interpolateSheetLambda (25 + 5) none) * 1 *
                |(55 : ℚ) - 25|) /
            ((max (132/100 * (fun _ : ℚ => (2 : ℚ)) |(55 : ℚ) - 25|)
                (1/(13/100)) + 93/100 * (1428/1000)) * 1 * |(55 : ℚ) - 25|) *
            100
        , costPerHour := flatUval 9 13
            (interpolateSheetLambda (25 + 5) none) * 1 *
            |(55 : ℚ) - 25| / 1000 * 5 } :=
  computeSheetHeatLoss_formulas (fun _ => 2) 25 55 13 1 none 9 5
    (by norm_num) (by norm_num) (by norm_num) trivial

/-- The fixed ascending catalog of manufacturable sheet thicknesses. -/
def sheetCandidates : List ℚ := [6, 9, 10, 13, 19, 25, 32, 40, 50]

/-- The candidate loop of `getRecommendedSheetThickness`: take the first
candidate whose flux `U·ΔT` is within the target; after the loop, fall
back to the last catalog entry. -/
def recommendGo (h lambda deltaT target : ℚ) : List ℚ → Except SheetError ℚ
  | [] => .ok (sheetCandidates.getLastD 0)
  | t :: rest =>
    match getFlatU h t lambda with
    | .error e => .error e
    | .ok U =>
      if U * deltaT ≤ target then .ok t
      else recommendGo h lambda deltaT target rest

/-- `getRecommendedSheetThickness(ambientTemp, mediumTemp, _areaM2,
material, h, targetHeatFluxWPerM2 = 15)`: λ at `ambientTemp`,
`ΔT = |mediumTemp - ambientTemp|`, then the candidate loop. -/
def getRecommendedSheetThickness (ambientTemp mediumTemp _areaM2 : ℚ)
    (material : Option (List (ℚ × ℚ))) (h : ℚ)
    (targetHeatFluxWPerM2 : ℚ := 15) : Except SheetError ℚ :=
  recommendGo h (interpolateSheetLambda ambientTemp material)
    |mediumTemp - ambientTemp| targetHeatFluxWPerM2 sheetCandidates

/-- Loop invariant for the candidate scan: over a strictly ascending list
of positive candidates, it succeeds and returns either the smallest
candidate meeting the flux target, or the catalog-max fallback when no
candidate meets it. -/
lemma recommendGo_spec (h lambda deltaT target : ℚ) (l : List ℚ)
    (hh : 0 < h) (hl : 0 < lambda) (hposl : ∀ s ∈ l, 0 < s)
    (hsort : l.Pairwise (· < ·)) :
    ∃ t, recommendGo h lambda deltaT target l = .ok t ∧
      ((t ∈ l ∧ flatUval h t lambda * deltaT ≤ target ∧
          ∀ s ∈ l, s < t → ¬(flatUval h s lambda * deltaT ≤ target)) ∨
        (t = sheetCandidates.getLastD 0 ∧
          ∀ s ∈ l, ¬(flatUval h s lambda * deltaT ≤ target))) := by
  induction l with
  | nil =>
    exact ⟨sheetCandidates.getLastD 0, rfl, Or.inr ⟨rfl, by simp⟩⟩
  | cons c rest ih =>
    rcases List.pairwise_cons.mp hsort with ⟨hc, hsort'⟩
    have hcpos : 0 < c := hposl c (List.mem_cons_self _ _)
    have hstep : recommendGo h lambda deltaT target (c :: rest) =
        if flatUval h c lambda * deltaT ≤ target then .ok c
        else recommendGo h lambda deltaT target rest := by
      rw [recommendGo, getFlatU_ok h c lambda hh hcpos hl]
    by_cases hsat : flatUval h c lambda * deltaT ≤ target
    · refine ⟨c, ?_, Or.inl ⟨List.mem_cons_self _ _, hsat, ?_⟩⟩
      · rw [hstep, if_pos hsat]
      · intro s hs hslt
        rcases List.mem_cons.mp hs with rfl | hs'
        · exact absurd hslt (lt_irrefl s)
        · exact absurd hslt (not_lt.mpr (hc s hs').le)
    · obtain ⟨t, heq, hcase⟩ :=
        ih (fun s hs => hposl s (List.mem_cons_of_mem _ hs)) hsort'
      refine ⟨t, ?_, ?_⟩
      · rw [hstep, if_neg hsat, heq]
      · rcases hcase with ⟨hmem, hsatt, hmin⟩ | ⟨hfb, hall⟩
        · refine Or.inl ⟨List.mem_cons_of_mem _ hmem, hsatt, ?_⟩
          intro s hs hslt
          rcases List.mem_cons.mp hs with rfl | hs'
          · exact hsat
          · exact hmin s hs' hslt
        · refine Or.inr ⟨hfb, ?_⟩
          intro s hs
          rcases List.mem_cons.mp hs with rfl | hs'
          · exact hsat
          · exact hall s hs'

/-- C5: with positive h and a valid material, the recommender succeeds and
returns the smallest catalog thickness whose flux
`flatU(h, t, λ(ambientTemp))·ΔT` is within the target, or the catalog
maximum 50 when no catalog thickness meets the target; any non-fallback
result therefore satisfies `U·ΔT ≤ targetFlux`. -/
theorem recommended_thickness_first_satisfying
    (ambientTemp mediumTemp areaM2 : ℚ) (material : Option (List (ℚ × ℚ)))
    (h target : ℚ) (hh : 0 < h) (hv : ValidMaterial material) :
    ∃ t, getRecommendedSheetThickness ambientTemp mediumTemp areaM2 material
        h target = .ok t ∧
      t ∈ sheetCandidates ∧
      ((flatUval h t (interpolateSheetLambda ambientTemp material) *
            |mediumTemp - ambientTemp| ≤ target ∧
          ∀ s ∈ sheetCandidates, s < t →
            ¬(flatUval h s (interpolateSheetLambda ambientTemp material) *
                |mediumTemp - ambientTemp| ≤ target)) ∨
        (t = 50 ∧ ∀ s ∈ sheetCandidates,
          ¬(flatUval h s (interpolateSheetLambda ambientTemp material) *
              |mediumTemp - ambientTemp| ≤ target))) := by
  have hlam : 0 < interpolateSheetLambda ambientTemp material :=
    interpolateSheetLambda_pos ambientTemp material hv
  have hposl : ∀ s ∈ sheetCandidates, 0 < s := by
    intro s hs
    fin_cases hs <;> norm_num
  have hsort : sheetCandidates.Pairwise (· < ·) := by
    norm_num [sheetCandidates, List.pairwise_cons]
  obtain ⟨t, heq, hcase⟩ := recommendGo_spec h
    (interpolateSheetLambda ambientTemp material) |mediumTemp - ambientTemp|
    target sheetCandidates hh hlam hposl hsort
  refine ⟨t, heq, ?_, ?_⟩
  · rcases hcase with ⟨hmem, -, -⟩ | ⟨hfb, -⟩
    · exact hmem
    · rw [hfb]; norm_num [sheetCandidates]
  · rcases hcase with ⟨hmem, hsat, hmin⟩ | ⟨hfb, hall⟩
    · exact Or.inl ⟨hsat, hmin⟩
    · refine Or.inr ⟨?_, hall⟩
      rw [hfb]; norm_num [sheetCandidates]

/-- C5 witness: ambient 25, medium 55 (ΔT = 30), unknown material
(λ = 0.036), h = 9, target 30 W/m²: the smallest catalog thickness whose
flux meets the target. -/
theorem recommended_thickness_first_satisfying_witness :
    ∃ t, getRecommendedSheetThickness 25 55 1 none 9 30 = .ok t ∧
      t ∈ sheetCandidates ∧
      ((flatUval 9 t (interpolateSheetLambda 25 none) * |(55 : ℚ) - 25| ≤ 30 ∧
          ∀ s ∈ sheetCandidates, s < t →
            ¬(flatUval 9 s (interpolateSheetLambda 25 none) *
                |(55 : ℚ) - 25| ≤ 30)) ∨
        (t = 50 ∧ ∀ s ∈ sheetCandidates,
          ¬(flatUval 9 s (interpolateSheetLambda 25 none) *
              |(55 : ℚ) - 25| ≤ 30))) :=
  recommended_thickness_first_satisfying 25 55 1 none 9 30 (by norm_num)
    trivial

/-- C9: the recommender is not total — with `h ≤ 0` it propagates the
InvalidInput failure of the U-value validation on the first catalog
candidate instead of returning a thickness. -/
theorem recommended_thickness_nonpositive_h
    (ambientTemp mediumTemp areaM2 : ℚ) (material : Option (List (ℚ × ℚ)))
    (h target : ℚ) (hnp : h ≤ 0) :
    getRecommendedSheetThickness ambientTemp mediumTemp areaM2 material h
      target = .error SheetError.invalidInput := by
  have h6 : getFlatU h 6 (interpolateSheetLambda ambientTemp material) =
      .error .invalidInput := by
    unfold getFlatU
    rw [if_pos hnp]
  unfold getRecommendedSheetThickness sheetCandidates
  rw [recommendGo, h6]

/-- C9 witness at h = 0. -/
theorem recommended_thickness_nonpositive_h_witness :
    getRecommendedSheetThickness 25 55 1 none 0 15 =
      .error SheetError.invalidInput :=
  recommended_thickness_nonpositive_h 25 55 1 none 0 15 (by norm_num)

/-- The local `surfaceTempAt` closure of `calculateMinimumSheetThickness`:
`R_ins = (thicknessMm/1000)/λ`, `R_total = R_ins + R_conv`,
`q = (mediumTemp - ambientTemp)/R_total`, and the outer surface temperature
`ambientTemp + q·R_conv`. -/
def surfaceTempAt (ambientTemp mediumTemp lambda R_conv thicknessMm : ℚ) : ℚ :=
  ambientTemp +
    (mediumTemp - ambientTemp) / ((thicknessMm / 1000) / lambda + R_conv) *
      R_conv

/-- The bisection loop of `calculateMinimumSheetThickness`, with explicit
fuel (the exact loop halves the bracket each pass, so any fuel ≥ 14
reproduces the `while (hi - lo > step)` loop from `[0.01, 100]`): while the
bracket is wider than 0.01 mm, move `hi` down to the midpoint when the
surface temperature there already meets the target, else move `lo` up. -/
def bisectLoop (f : ℚ → ℚ) (target : ℚ) : Nat → ℚ → ℚ → ℚ × ℚ
  | 0, lo, hi => (lo, hi)
  | n + 1, lo, hi =>
    if hi - lo > 1/100 then
      if f ((lo + hi) / 2) ≥ target then
        bisectLoop f target n lo ((lo + hi) / 2)
      else bisectLoop f target n ((lo + hi) / 2) hi
    else (lo, hi)

/-- `calculateMinimumSheetThickness(ambientTemp, mediumTemp, dewPoint,
material, h, safetyMarginC = 0.3)`: validates h > 0, dewPoint < ambient,
target = dewPoint + margin ≤ ambient; λ at the mean of ambient and medium;
if even 100 mm cannot reach the target returns the 50 mm fallback; else
bisects `[0.01, 100]` to 0.01 mm and rounds the upper bound up to the
nearest 0.01 mm. -/
def calculateMinimumSheetThickness (ambientTemp mediumTemp dewPoint : ℚ)
    (material : Option (List (ℚ × ℚ))) (h : ℚ)
    (safetyMarginC : ℚ := 3/10) : Except SheetError ℚ :=
  if h ≤ 0 then .error .invalidInput
  else if dewPoint ≥ ambientTemp then .error .physicallyImpossible
  else if dewPoint + safetyMarginC > ambientTemp then .error .physicallyImpossible
  else
    let lambda := interpolateSheetLambda ((ambientTemp + mediumTemp) / 2) material
    if surfaceTempAt ambientTemp mediumTemp lambda (1/h) 100 <
        dewPoint + safetyMarginC then
      .ok 50
    else
      .ok ((⌈(bisectLoop (surfaceTempAt ambientTemp mediumTemp lambda (1/h))
          (dewPoint + safetyMarginC) 100 (1/100) 100).2 * 100⌉ : ℚ) / 100)

/-- C6: when the preconditions hold but the surface temperature at the
maximum search thickness of 100 mm is still below the target, the solver
returns exactly 50 mm without raising an error. -/
theorem minimum_thickness_fallback_fifty (ambientTemp mediumTemp dewPoint : ℚ)
    (material : Option (List (ℚ × ℚ))) (h safetyMarginC : ℚ)
    (hh : 0 < h) (hdew : dewPoint < ambientTemp)
    (htar : dewPoint + safetyMarginC ≤ ambientTemp)
    (hfb : surfaceTempAt ambientTemp mediumTemp
        (interpolateSheetLambda ((ambientTemp + mediumTemp) / 2) material)
        (1/h) 100 < dewPoint + safetyMarginC) :
    calculateMinimumSheetThickness ambientTemp mediumTemp dewPoint material h
      safetyMarginC = .ok 50 := by
  unfold calculateMinimumSheetThickness
  rw [if_neg (not_le.mpr hh), if_neg (not_le.mpr hdew),
    if_neg (not_lt.mpr htar)]
  dsimp only
  rw [if_pos hfb]

/-- C6 witness: ambient 20, medium −100, dew point 19, margin 0.3, h = 2,
unknown material: even 100 mm leaves the surface at about 1.7 °C, far
below the 19.3 °C target, so the solver returns the 50 mm fallback. -/
theorem minimum_thickness_fallback_fifty_witness :
    calculateMinimumSheetThickness 20 (-100) 19 none 2 (3/10) = .ok 50 :=
  minimum_thickness_fallback_fifty 20 (-100) 19 none 2 (3/10)
    (by norm_num) (by norm_num) (by norm_num)
    (by norm_num [surfaceTempAt, interpolateSheetLambda])

/-- Bisection invariant: starting from a bracket `lo < hi` whose upper end
meets the target, the loop keeps the bracket nested (`lo ≤ lo' < hi' ≤ hi`),
keeps the upper end meeting the target, and — when the lower end starts
strictly below the target — keeps it strictly below. -/
lemma bisectLoop_invariant (f : ℚ → ℚ) (target : ℚ) (n : Nat) :
    ∀ lo hi : ℚ, lo < hi → target ≤ f hi →
      lo ≤ (bisectLoop f target n lo hi).1 ∧
      (bisectLoop f target n lo hi).2 ≤ hi ∧
      (bisectLoop f target n lo hi).1 < (bisectLoop f target n lo hi).2 ∧
      target ≤ f (bisectLoop f target n lo hi).2 ∧
      (f lo < target → f (bisectLoop f target n lo hi).1 < target) := by
  induction n with
  | zero =>
    intro lo hi hlt hfhi
    exact ⟨le_refl _, le_refl _, hlt, hfhi, fun hflo => hflo⟩
  | succ n ih =>
    intro lo hi hlt hfhi
    rw [bisectLoop]
    split_ifs with hw hmid
    · have hmlt : lo < (lo + hi) / 2 := by linarith
      obtain ⟨h1, h2, h3, h4, h5⟩ := ih lo ((lo + hi) / 2) hmlt hmid
      exact ⟨h1, h2.trans (by linarith), h3, h4, h5⟩
    · have hmlt : (lo + hi) / 2 < hi := by linarith
      obtain ⟨h1, h2, h3, h4, h5⟩ := ih ((lo + hi) / 2) hi hmlt hfhi
      exact ⟨(by linarith : lo ≤ (lo + hi) / 2).trans h1, h2, h3, h4,
        fun _ => h5 (not_le.mp hmid)⟩
    · exact ⟨le_refl _, le_refl _, hlt, hfhi, fun hflo => hflo⟩

/-- Bisection termination bound: if the initial bracket width is at most
`0.01·2^n`, then after at most `n` halvings the final bracket width is at
most 0.01. -/
lemma bisectLoop_width (f : ℚ → ℚ) (target : ℚ) (n : Nat) :
    ∀ lo hi : ℚ, hi - lo ≤ (1/100) * 2 ^ n →
      (bisectLoop f target n lo hi).2 - (bisectLoop f target n lo hi).1 ≤
        1/100 := by
  induction n with
  | zero =>
    intro lo hi hw
    simpa [bisectLoop] using hw
  | succ n ih =>
    intro lo hi hw
    rw [pow_succ] at hw
    rw [bisectLoop]
    split_ifs with hcond hmid
    · exact ih lo ((lo + hi) / 2) (by linarith)
    · exact ih ((lo + hi) / 2) hi (by linarith)
    · exact not_lt.mp hcond

/-- In the condensation case `mediumTemp ≤ ambientTemp`, the surface
temperature is monotone non-decreasing in the thickness (thicker insulation
lets the cold side pull the surface down less). -/
lemma surfaceTempAt_mono (ambientTemp mediumTemp lambda h : ℚ)
    (hl : 0 < lambda) (hh : 0 < h) (hma : mediumTemp ≤ ambientTemp) :
    ∀ x y : ℚ, 0 ≤ x → x ≤ y →
      surfaceTempAt ambientTemp mediumTemp lambda (1/h) x ≤
        surfaceTempAt ambientTemp mediumTemp lambda (1/h) y := by
  intro x y hx hxy
  unfold surfaceTempAt
  have hc : 0 < 1/h := one_div_pos.mpr hh
  have hRx : 0 < x / 1000 / lambda + 1/h :=
    add_pos_of_nonneg_of_pos
      (div_nonneg (div_nonneg hx (by norm_num)) hl.le) hc
  have hRy : 0 < y / 1000 / lambda + 1/h :=
    add_pos_of_nonneg_of_pos
      (div_nonneg (div_nonneg (hx.trans hxy) (by norm_num)) hl.le) hc
  have hRle : x / 1000 / lambda + 1/h ≤ y / 1000 / lambda + 1/h := by
    have : x / 1000 / lambda ≤ y / 1000 / lambda := by
      apply div_le_div_of_nonneg_right ?_ hl.le
      linarith
    linarith
  have hdiv : (mediumTemp - ambientTemp) / (x / 1000 / lambda + 1/h) ≤
      (mediumTemp - ambientTemp) / (y / 1000 / lambda + 1/h) := by
    rw [div_le_div_iff₀ hRx hRy]
    exact mul_le_mul_of_nonpos_left hRle (by linarith)
  have := mul_le_mul_of_nonneg_right hdiv hc.le
  linarith

/-- In the heating or neutral case `ambientTemp ≤ mediumTemp`, the surface
temperature never drops below ambient. -/
lemma surfaceTempAt_ge_ambient (ambientTemp mediumTemp lambda h : ℚ)
    (hl : 0 < lambda) (hh : 0 < h) (hma : ambientTemp ≤ mediumTemp) :
    ∀ x : ℚ, 0 ≤ x →
      ambientTemp ≤ surfaceTempAt ambientTemp mediumTemp lambda (1/h) x := by
  intro x hx
  unfold surfaceTempAt
  have hc : 0 < 1/h := one_div_pos.mpr hh
  have hRx : 0 < x / 1000 / lambda + 1/h :=
    add_pos_of_nonneg_of_pos
      (div_nonneg (div_nonneg hx (by norm_num)) hl.le) hc
  have : 0 ≤ (mediumTemp - ambientTemp) / (x / 1000 / lambda + 1/h) * (1/h) :=
    mul_nonneg (div_nonneg (by linarith) hRx.le) hc.le
  linarith

/-- When the preconditions hold and the fallback is not taken, the solver
returns the bisection bracket's upper end rounded up to 0.01 mm. -/
lemma calcMin_eq_bisect (ambientTemp mediumTemp dewPoint : ℚ)
    (material : Option (List (ℚ × ℚ))) (h safetyMarginC : ℚ)
    (hh : 0 < h) (hdew : dewPoint < ambientTemp)
    (htar : dewPoint + safetyMarginC ≤ ambientTemp)
    (hnofb : dewPoint + safetyMarginC ≤
      surfaceTempAt ambientTemp mediumTemp
        (interpolateSheetLambda ((ambientTemp + mediumTemp) / 2) material)
        (1/h) 100) :
    calculateMinimumSheetThickness ambientTemp mediumTemp dewPoint material h
        safetyMarginC =
      .ok ((⌈(bisectLoop
          (surfaceTempAt ambientTemp mediumTemp
            (interpolateSheetLambda ((ambientTemp + mediumTemp) / 2) material)
            (1/h))
          (dewPoint + safetyMarginC) 100 (1/100) 100).2 * 100⌉ : ℚ) / 100) := by
  unfold calculateMinimumSheetThickness
  rw [if_neg (not_le.mpr hh), if_neg (not_le.mpr hdew),
    if_neg (not_lt.mpr htar)]
  dsimp only
  rw [if_neg (not_lt.mpr hnofb)]

/-- C3 (amended): for inputs meeting the preconditions where the 50 mm
fallback is not taken, the returned thickness `t` always satisfies the
conservative half of the bracket, `target ≤ surfaceTempAt(t)`; and whenever
the target is not already met at the minimal search thickness 0.01 mm
(which is exactly when the claimed minimality can make sense — otherwise
`surfaceTempAt(t - 0.01) < target` is false, see the counterexample), the
lower half holds within one extra grid step:
`surfaceTempAt(t - 0.02) < target`. -/
theorem minimum_thickness_bracket (ambientTemp mediumTemp dewPoint : ℚ)
    (material : Option (List (ℚ × ℚ))) (h safetyMarginC : ℚ)
    (hv : ValidMaterial material) (hh : 0 < h)
    (hdew : dewPoint < ambientTemp)
    (htar : dewPoint + safetyMarginC ≤ ambientTemp)
    (hnofb : dewPoint + safetyMarginC ≤
      surfaceTempAt ambientTemp mediumTemp
        (interpolateSheetLambda ((ambientTemp + mediumTemp) / 2) material)
        (1/h) 100) :
    ∃ t, calculateMinimumSheetThickness ambientTemp mediumTemp dewPoint
        material h safetyMarginC = .ok t ∧
      dewPoint + safetyMarginC ≤
        surfaceTempAt ambientTemp mediumTemp
          (interpolateSheetLambda ((ambientTemp + mediumTemp) / 2) material)
          (1/h) t ∧
      (surfaceTempAt ambientTemp mediumTemp
          (interpolateSheetLambda ((ambientTemp + mediumTemp) / 2) material)
          (1/h) (1/100) < dewPoint + safetyMarginC →
        surfaceTempAt ambientTemp mediumTemp
          (interpolateSheetLambda ((ambientTemp + mediumTemp) / 2) material)
          (1/h) (t - 2/100) < dewPoint + safetyMarginC) := by
  refine ⟨_, calcMin_eq_bisect ambientTemp mediumTemp dewPoint material h
    safetyMarginC hh hdew htar hnofb, ?_, ?_⟩ <;>
  · set lam := interpolateSheetLambda ((ambientTemp + mediumTemp) / 2)
      material with hlam_def
    have hlam : 0 < lam := interpolateSheetLambda_pos _ _ hv
    set f := surfaceTempAt ambientTemp mediumTemp lam (1/h) with hf_def
    set target := dewPoint + safetyMarginC with htg_def
    obtain ⟨hI1, hI2, hI3, hI4, hI5⟩ :=
      bisectLoop_invariant f target 100 (1/100) 100 (by norm_num) hnofb
    have hwidth := bisectLoop_width f target 100 (1/100) 100 (by norm_num)
    set B := bisectLoop f target 100 (1/100) 100 with hB_def
    have hceil_ge : B.2 * 100 ≤ (⌈B.2 * 100⌉ : ℚ) := Int.le_ceil _
    have hceil_lt : (⌈B.2 * 100⌉ : ℚ) < B.2 * 100 + 1 :=
      Int.ceil_lt_add_one _
    have hB1pos : (1 : ℚ)/100 ≤ B.1 := hI1
    have hB2pos : (0 : ℚ) < B.2 := by linarith
    have ht2 : (2 : ℚ) ≤ (⌈B.2 * 100⌉ : ℚ) := by
      have h1 : (1 : ℤ) < ⌈B.2 * 100⌉ := Int.lt_ceil.mpr (by push_cast; linarith)
      exact_mod_cast h1
    first
    | · -- upper half: target ≤ f (⌈B.2·100⌉/100)
        rcases le_or_lt mediumTemp ambientTemp with hma | hma
        · refine hI4.trans (surfaceTempAt_mono ambientTemp mediumTemp lam h
            hlam hh hma B.2 ((⌈B.2 * 100⌉ : ℚ) / 100) hB2pos.le ?_)
          linarith
        · refine htar.trans (surfaceTempAt_ge_ambient ambientTemp mediumTemp
            lam h hlam hh hma.le ((⌈B.2 * 100⌉ : ℚ) / 100) ?_)
          linarith
    | · -- lower half under the extra hypothesis
        intro hlow
        have hma : mediumTemp ≤ ambientTemp := by
          by_contra hcon
          push_neg at hcon
          have := surfaceTempAt_ge_ambient ambientTemp mediumTemp lam h
            hlam hh hcon.le (1/100) (by norm_num)
          exact absurd hlow (not_lt.mpr (htar.trans this))
        have hflo : f B.1 < target := hI5 hlow
        have htB : (⌈B.2 * 100⌉ : ℚ) / 100 - 2/100 ≤ B.1 := by linarith
        have h0t : 0 ≤ (⌈B.2 * 100⌉ : ℚ) / 100 - 2/100 := by linarith
        exact lt_of_le_of_lt
          (surfaceTempAt_mono ambientTemp mediumTemp lam h hlam hh hma
            ((⌈B.2 * 100⌉ : ℚ) / 100 - 2/100) B.1 h0t htB) hflo

/-- C3 witness: ambient 20, medium −20, dew point 15, margin 0.3, h = 9,
unknown material.  100 mm brings the surface to 240/13 ≈ 18.5 °C ≥ 15.3 °C
(no fallback), and 0.01 mm leaves it near −20 °C, so both halves of the
amended bracket apply. -/
theorem minimum_thickness_bracket_witness :
    ∃ t, calculateMinimumSheetThickness 20 (-20) 15 none 9 (3/10) = .ok t ∧
      (15 : ℚ) + 3/10 ≤
        surfaceTempAt 20 (-20)
          (interpolateSheetLambda ((20 + -20) / 2) none) (1/9) t ∧
      (surfaceTempAt 20 (-20)
          (interpolateSheetLambda ((20 + -20) / 2) none) (1/9) (1/100) <
          15 + 3/10 →
        surfaceTempAt 20 (-20)
          (interpolateSheetLambda ((20 + -20) / 2) none) (1/9) (t - 2/100) <
          15 + 3/10) :=
  minimum_thickness_bracket 20 (-20) 15 none 9 (3/10) trivial
    (by norm_num) (by norm_num) (by norm_num)
    (by norm_num [surfaceTempAt, interpolateSheetLambda])

/-- Exit of the bisection loop once the bracket is narrow enough. -/
lemma bisectLoop_of_narrow (f : ℚ → ℚ) (target : ℚ) (n : Nat) (lo hi : ℚ)
    (hw : hi - lo ≤ 1/100) : bisectLoop f target n lo hi = (lo, hi) := by
  cases n with
  | zero => rfl
  | succ n => rw [bisectLoop, if_neg (not_lt.mpr hw)]

/-- Closed form of the bisection loop when every nonnegative thickness
already meets the target (then the loop always moves the upper end to the
midpoint): after the minimal number `k` of halvings that shrink the
bracket to 0.01, the loop returns `(lo, lo + (hi - lo)/2^k)`. -/
lemma bisectLoop_all_ge_eq (f : ℚ → ℚ) (target : ℚ)
    (hge : ∀ x : ℚ, 0 ≤ x → target ≤ f x) (k : Nat) :
    ∀ (n : Nat) (lo hi : ℚ), 0 ≤ lo → lo < hi →
      (hi - lo) / 2 ^ k ≤ 1/100 → (∀ j < k, 1/100 < (hi - lo) / 2 ^ j) →
      k ≤ n →
      bisectLoop f target n lo hi = (lo, lo + (hi - lo) / 2 ^ k) := by
  induction k with
  | zero =>
    intro n lo hi hlo hlt hk _ _
    rw [bisectLoop_of_narrow f target n lo hi (by simpa using hk)]
    have : lo + (hi - lo) / 2 ^ (0 : Nat) = hi := by norm_num
    rw [this]
  | succ k ih =>
    intro n lo hi hlo hlt hk hprev hkn
    cases n with
    | zero => exact absurd hkn (by omega)
    | succ n =>
      have hw : 1/100 < hi - lo := by
        have := hprev 0 (by omega)
        simpa using this
      have hmid0 : (0 : ℚ) ≤ (lo + hi) / 2 := by linarith
      rw [bisectLoop, if_pos hw, if_pos (hge _ hmid0)]
      have hstep := ih n lo ((lo + hi) / 2) hlo (by linarith)
        (by rw [pow_succ] at hk; rw [show ((lo + hi)/2 - lo) = (hi - lo)/2 by
              ring]
            rw [div_div]
            convert hk using 2
            ring)
        (by intro j hj
            have := hprev (j + 1) (by omega)
            rw [pow_succ] at this
            rw [show ((lo + hi)/2 - lo) = (hi - lo)/2 by ring, div_div]
            convert this using 2
            ring)
        (by omega)
      rw [hstep]
      have : ((lo + hi)/2 - lo) / 2 ^ k = (hi - lo) / 2 ^ (k + 1) := by
        rw [show ((lo + hi)/2 - lo) = (hi - lo)/2 by ring, div_div,
          pow_succ]
        ring_nf
      rw [this]

/-- C3 counterexample: ambient 20, medium 60 (a heating case), dew point
10, margin 0.3, h = 9, unknown material.  The preconditions hold and the
fallback is not taken (the third conjunct shows 100 mm meets the target),
the solver returns t* = 0.02 mm, yet
`surfaceTempAt(t* - 0.01) = surfaceTempAt(0.01) ≈ 59.9 °C` is far above
the 10.3 °C target, refuting
`surfaceTempAt(t* - 0.01) < target` at this input. -/
theorem minimum_thickness_bracket_counterexample :
    calculateMinimumSheetThickness 20 60 10 none 9 (3/10) = .ok (2/100) ∧
    (10 : ℚ) + 3/10 ≤
      surfaceTempAt 20 60 (interpolateSheetLambda ((20 + 60) / 2) none)
        (1/9) 100 ∧
    ¬(surfaceTempAt 20 60 (interpolateSheetLambda ((20 + 60) / 2) none)
        (1/9) (2/100 - 1/100) < 10 + 3/10) := by
  have hlam : interpolateSheetLambda ((20 + 60 : ℚ) / 2) none = 36/1000 := rfl
  have hge : ∀ x : ℚ, 0 ≤ x →
      (10 : ℚ) + 3/10 ≤ surfaceTempAt 20 60 (36/1000) (1/9) x := by
    intro x hx
    have h1 := surfaceTempAt_ge_ambient 20 60 (36/1000) 9 (by norm_num)
      (by norm_num) (by norm_num) x hx
    linarith
  refine ⟨?_, ?_, ?_⟩
  · have hcalc := calcMin_eq_bisect 20 60 10 none 9 (3/10) (by norm_num)
      (by norm_num) (by norm_num)
      (by rw [hlam]; exact hge 100 (by norm_num))
    rw [hlam] at hcalc
    have hB := bisectLoop_all_ge_eq (surfaceTempAt 20 60 (36/1000) (1/9))
      (10 + 3/10) hge 14 100 (1/100) 100 (by norm_num) (by norm_num)
      (by norm_num)
      (by intro j hj; interval_cases j <;> norm_num)
      (by norm_num)
    rw [hB] at hcalc
    rw [hcalc]
    have hc : (⌈(26383 : ℚ) / 16384⌉ : ℤ) = 2 := by
      rw [Int.ceil_eq_iff]
      constructor <;> norm_num
    norm_num [hc]
  · rw [hlam]
    exact hge 100 (by norm_num)
  · rw [hlam]
    exact not_lt.mpr (hge (2/100 - 1/100) (by norm_num))

/-- C7 counterexample: with h = −1 (InvalidInput condition) and dew point
30 ≥ ambient 20 (PhysicallyImpossible condition) both violated at once,
the solver checks h first and raises InvalidInput — so the claim's
unconditional "PhysicallyImpossible whenever dewPoint ≥ ambientTemp" is
false at this input. -/
theorem error_contract_counterexample :
    calculateMinimumSheetThickness 20 10 30 none (-1) (3/10) =
      .error SheetError.invalidInput ∧
    calculateMinimumSheetThickness 20 10 30 none (-1) (3/10) ≠
      .error SheetError.physicallyImpossible := by
  have h1 : calculateMinimumSheetThickness 20 10 30 none (-1) (3/10) =
      .error SheetError.invalidInput := by
    unfold calculateMinimumSheetThickness
    rw [if_pos (by norm_num : (-1 : ℚ) ≤ 0)]
  exact ⟨h1, by rw [h1]; simp⟩

/-- C7 (amended): `getFlatU`, `computeSheetHeatLoss` and
`calculateMinimumSheetThickness` raise InvalidInput whenever any of their
applicable parameters h, thickness, area is non-positive (the embedded
`.error` return models "raised before any derived quantity; no result");
and — provided h > 0, since the h validation runs first and otherwise wins
with InvalidInput — the solver raises PhysicallyImpossible whenever
`dewPoint ≥ ambientTemp` or `dewPoint + safetyMarginC > ambientTemp`. -/
theorem error_contract (pw : ℚ → ℚ)
    (h t lam ambientTemp mediumTemp dewPoint area cost marg : ℚ)
    (material : Option (List (ℚ × ℚ))) :
    (h ≤ 0 ∨ t ≤ 0 → getFlatU h t lam = .error SheetError.invalidInput) ∧
    (h ≤ 0 ∨ t ≤ 0 ∨ area ≤ 0 →
      computeSheetHeatLoss pw ambientTemp mediumTemp t area material h cost =
        .error SheetError.invalidInput) ∧
    (h ≤ 0 →
      calculateMinimumSheetThickness ambientTemp mediumTemp dewPoint
        material h marg = .error SheetError.invalidInput) ∧
    (0 < h → (ambientTemp ≤ dewPoint ∨ ambientTemp < dewPoint + marg) →
      calculateMinimumSheetThickness ambientTemp mediumTemp dewPoint
        material h marg = .error SheetError.physicallyImpossible) := by
  refine ⟨?_, ?_, ?_, ?_⟩
  · intro hcase
    unfold getFlatU
    rcases hcase with hH | hT
    · rw [if_pos hH]
    · by_cases hH : h ≤ 0
      · rw [if_pos hH]
      · rw [if_neg hH, if_pos hT]
  · intro hcase
    unfold computeSheetHeatLoss
    by_cases hA : area ≤ 0
    · rw [if_pos hA]
    · rw [if_neg hA]
      by_cases hT : t ≤ 0
      · rw [if_pos hT]
      · rw [if_neg hT]
        have hH : h ≤ 0 := by tauto
        rw [if_pos hH]
  · intro hH
    unfold calculateMinimumSheetThickness
    rw [if_pos hH]
  · intro hH hcase
    unfold calculateMinimumSheetThickness
    rw [if_neg (not_le.mpr hH)]
    by_cases hD : ambientTemp ≤ dewPoint
    · rw [if_pos hD]
    · rw [if_neg hD]
      have hM : ambientTemp < dewPoint + marg := by tauto
      rw [if_pos hM]

/-- C7 witness: InvalidInput for `getFlatU` with h = −1, for
`computeSheetHeatLoss` with area = −1, for the solver with h = −2; and
PhysicallyImpossible for the solver with dew point 25 above ambient 20. -/
theorem error_contract_witness :
    getFlatU (-1) 13 (1/10) = .error SheetError.invalidInput ∧
    computeSheetHeatLoss (fun _ => 1) 20 50 13 (-1) none 9 5 =
      .error SheetError.invalidInput ∧
    calculateMinimumSheetThickness 20 10 15 none (-2) (3/10) =
      .error SheetError.invalidInput ∧
    calculateMinimumSheetThickness 20 10 25 none 9 (3/10) =
      .error SheetError.physicallyImpossible :=
  ⟨(error_contract (fun _ => 1) (-1) 13 (1/10) 20 50 25 (-1) 5 (3/10)
      none).1 (Or.inl (by norm_num)),
   (error_contract (fun _ => 1) 9 13 (1/10) 20 50 25 (-1) 5 (3/10)
      none).2.1 (Or.inr (Or.inr (by norm_num))),
   (error_contract (fun _ => 1) (-2) 13 (1/10) 20 10 15 1 5 (3/10)
      none).2.2.1 (by norm_num),
   (error_contract (fun _ => 1) 9 13 (1/10) 20 10 25 1 5 (3/10)
      none).2.2.2 (by norm_num) (Or.inl (by norm_num))⟩
